import Mathlib

/-!
Verification of the activity lifecycle service of `rtw` (a command-line
time tracker). The service (`src/service.rs`) orchestrates two storage
capabilities: a finished-activity store and a current-activity slot.
We embed the service shallowly: timestamps are integers (second
resolution), the two repositories become explicit fields of a
`ServiceState`, and every operation is a pure function from a state to a
result paired with the successor state. Storage operations of the
excluded persistence layer may fail; a `Faults` oracle says which of
them fail during one call, letting us reason about partial application.
-/

namespace Rtw

/-- An instant, second resolution (embeds `DateTimeW`; claims only need
its linear order, so we use `Int`). -/
abbrev Instant := Int

/-- `Tags = Vec<Tag>` with `Tag = String` (`src/rtw_core/mod.rs`). -/
abbrev Tags := List String

/-- `ActivityId = usize` (`src/rtw_core/mod.rs`). -/
abbrev ActivityId := Nat

/-- Modelled from the spec: `OngoingActivity { start_time, tags }` (the
data-model module is not under `src/`; §3 of the spec gives the fields). -/
structure OngoingActivity where
  start_time : Instant
  tags : Tags
deriving DecidableEq, Repr

/-- Modelled from the spec: `Activity { start_time, end_time, tags }`
(§3 of the spec; the data-model module is not under `src/`). -/
structure Activity where
  start_time : Instant
  end_time : Instant
  tags : Tags
deriving DecidableEq, Repr

/-- The two error kinds of §7 of the spec: an invalid interval
(end before start) and a storage failure surfaced by a repository. -/
inductive RtwError where
  | invalidInterval : RtwError
  | storageFailure : RtwError
deriving DecidableEq, Repr

/-- Modelled from the spec: `OngoingActivity::into_activity(time)`
(not under `src/`): converts to a finished `Activity` with `time` as
`end_time`, failing with an invalid-interval error when
`time < start_time` (§4.1 step 2, §7). -/
def OngoingActivity.into_activity (o : OngoingActivity) (time : Instant) :
    Except RtwError Activity :=
  if time < o.start_time then .error .invalidInterval
  else .ok ⟨o.start_time, time, o.tags⟩

/-- Modelled from the spec: the finished-activity store (§6): an
identifier-indexed, insertion-ordered collection; the store assigns
fresh ids at write time (§3). -/
structure FinishedStore where
  entries : List (ActivityId × Activity)
  nextId : ActivityId
deriving DecidableEq, Repr

/-- Modelled from the spec: `FinishedActivityRepository::write_activity`
(not under `src/`): fails with an invalid-interval error when
`end_time < start_time` (§3 store invariant, §4.1 `track`), otherwise
appends the activity under a fresh id (§6). -/
def FinishedStore.write_activity (st : FinishedStore) (a : Activity) :
    Except RtwError (ActivityId × FinishedStore) :=
  if a.end_time < a.start_time then .error .invalidInterval
  else .ok (st.nextId, ⟨st.entries ++ [(st.nextId, a)], st.nextId + 1⟩)

/-- Modelled from the spec:
`FinishedActivityRepository::delete_activity` (not under `src/`):
removes and returns the entry with the given id if present, else
returns `none` and leaves the store unchanged (§6, §4.1). -/
def FinishedStore.delete_activity (st : FinishedStore) (id : ActivityId) :
    Option Activity × FinishedStore :=
  match st.entries.find? (fun e => e.1 == id) with
  | none => (none, st)
  | some e => (some e.2, ⟨st.entries.filter (fun x => !(x.1 == id)), st.nextId⟩)

/-- Modelled from the spec:
`FinishedActivityRepository::filter_activities` (not under `src/`):
the entries satisfying the predicate, in store (insertion) order (§6). -/
def FinishedStore.filter_activities (st : FinishedStore)
    (p : ActivityId × Activity → Bool) : List (ActivityId × Activity) :=
  st.entries.filter p

/-- The state of `Service` (`src/service.rs` lines 7-14): a finished
store and a current-activity slot holding zero or one ongoing
activity. -/
structure ServiceState where
  finished : FinishedStore
  current : Option OngoingActivity
deriving DecidableEq, Repr

/-- Which storage operations fail during one service call. The
repositories are fallible (`anyhow::Result` in `src/service.rs`); per
§7 of the spec a failing storage operation itself does not take effect,
while operations that already succeeded stay applied. -/
structure Faults where
  failGet : Bool
  failWrite : Bool
  failReset : Bool
  failSet : Bool
deriving DecidableEq, Repr

/-- The fault-free oracle: every storage operation succeeds. -/
def noFaults : Faults := ⟨false, false, false, false⟩

/-- `Service::stop_current_activity` (`src/service.rs` lines 42-53):
read the current slot; if empty return `Ok(None)`; otherwise convert
the ongoing activity with `time` as end time (line 48, may fail), write
it to the finished store (line 48), reset the slot (line 49), and
return the conversion recomputed as on line 50. The returned state is
the content of `self` after the call, also when the call fails. -/
def stop_current_activity (fl : Faults) (time : Instant) (s : ServiceState) :
    Except RtwError (Option Activity) × ServiceState :=
  if fl.failGet then (.error .storageFailure, s)
  else
    match s.current with
    | none => (.ok none, s)
    | some current_activity =>
      match current_activity.into_activity time with
      | .error e => (.error e, s)
      | .ok a =>
        if fl.failWrite then (.error .storageFailure, s)
        else
          match s.finished.write_activity a with
          | .error e => (.error e, s)
          | .ok (_, fin) =>
            let s1 : ServiceState := ⟨fin, s.current⟩
            if fl.failReset then (.error .storageFailure, s1)
            else
              let s2 : ServiceState := ⟨fin, none⟩
              match current_activity.into_activity time with
              | .error e => (.error e, s2)
              | .ok a2 => (.ok (some a2), s2)

/-- `Service::start_activity` (`src/service.rs` lines 35-40): stop the
current activity using the new activity's start time (line 36, `?`
propagates failures), build the new ongoing activity (line 37) and set
it as current (line 38), returning it (line 39). -/
def start_activity (fl : Faults) (activity : OngoingActivity) (s : ServiceState) :
    Except RtwError OngoingActivity × ServiceState :=
  match stop_current_activity fl activity.start_time s with
  | (.error e, s') => (.error e, s')
  | (.ok _, s') =>
    let started : OngoingActivity := ⟨activity.start_time, activity.tags⟩
    if fl.failSet then (.error .storageFailure, s')
    else (.ok started, ⟨s'.finished, some started⟩)

/-- `Service::filter_activities` (`src/service.rs` lines 55-60):
delegates to the finished store; read-only. -/
def filter_activities (s : ServiceState) (p : ActivityId × Activity → Bool) :
    List (ActivityId × Activity) :=
  s.finished.filter_activities p

/-- `Service::delete_activity` (`src/service.rs` lines 62-64):
delegates to the finished store. -/
def delete_activity (s : ServiceState) (id : ActivityId) :
    Option Activity × ServiceState :=
  match s.finished.delete_activity id with
  | (r, fin) => (r, ⟨fin, s.current⟩)

/-- `Service::track_activity` (`src/service.rs` lines 66-69): write the
given activity to the finished store (line 67, `?` propagates
failures) and return it unchanged. -/
def track_activity (fl : Faults) (a : Activity) (s : ServiceState) :
    Except RtwError Activity × ServiceState :=
  if fl.failWrite then (.error .storageFailure, s)
  else
    match s.finished.write_activity a with
    | .error e => (.error e, s)
    | .ok (_, fin) => (.ok a, ⟨fin, s.current⟩)

/-- `Service::get_current_activity` (`src/service.rs` lines 31-33):
read-only view of the current slot. -/
def get_current_activity (fl : Faults) (s : ServiceState) :
    Except RtwError (Option OngoingActivity) :=
  if fl.failGet then .error .storageFailure else .ok s.current

/-! ### Shared lemmas -/

/-- A fault-free stop on an occupied slot with a valid end time appends
the closed interval to the store and clears the slot. -/
theorem stop_ok_of_some (s : ServiceState) (t0 t1 : Instant) (tg : Tags)
    (hc : s.current = some ⟨t0, tg⟩) (h : t0 ≤ t1) :
    stop_current_activity noFaults t1 s =
      (.ok (some ⟨t0, t1, tg⟩),
       ⟨⟨s.finished.entries ++ [(s.finished.nextId, ⟨t0, t1, tg⟩)],
         s.finished.nextId + 1⟩, none⟩) := by
  simp [stop_current_activity, noFaults, hc, OngoingActivity.into_activity,
    FinishedStore.write_activity, not_lt.mpr h]

/-- A fault-free stop on an occupied slot with an end time before the
ongoing start fails with an invalid-interval error and changes
nothing. -/
theorem stop_invalid_of_some (s : ServiceState) (t0 t1 : Instant) (tg : Tags)
    (hc : s.current = some ⟨t0, tg⟩) (h : t1 < t0) :
    stop_current_activity noFaults t1 s = (.error .invalidInterval, s) := by
  simp [stop_current_activity, noFaults, hc, OngoingActivity.into_activity, h]

/-- Stopping with an empty slot is a successful no-op for any oracle
that lets the slot read succeed. -/
theorem stop_none_of_none (fl : Faults) (t : Instant) (s : ServiceState)
    (hg : fl.failGet = false) (hc : s.current = none) :
    stop_current_activity fl t s = (.ok none, s) := by
  simp [stop_current_activity, hg, hc]

/-- A successful fault-free start returns the ongoing activity built
from the argument's start time and tags and stores it as current,
leaving the finished store as the implicit stop left it. -/
theorem start_ok_inv (act : OngoingActivity) (s : ServiceState)
    (a : OngoingActivity) (s1 : ServiceState)
    (h : start_activity noFaults act s = (.ok a, s1)) :
    a = ⟨act.start_time, act.tags⟩ ∧
      s1 = ⟨(stop_current_activity noFaults act.start_time s).2.finished,
            some ⟨act.start_time, act.tags⟩⟩ := by
  unfold start_activity at h
  rcases hs : stop_current_activity noFaults act.start_time s with ⟨r, s'⟩
  rw [hs] at h
  cases r with
  | error e => simp at h
  | ok v =>
    simp [noFaults] at h
    rcases h with ⟨h1, h2⟩
    constructor
    · exact h1.symm
    · rw [← h2]

/-- Exhaustive characterization of `stop_current_activity` under an
arbitrary fault oracle: the six possible executions of
`src/service.rs` lines 42-53. -/
theorem stop_spec (fl : Faults) (t : Instant) (s : ServiceState) :
    (fl.failGet = true ∧ stop_current_activity fl t s = (.error .storageFailure, s)) ∨
    (fl.failGet = false ∧ s.current = none ∧
      stop_current_activity fl t s = (.ok none, s)) ∨
    (∃ c, fl.failGet = false ∧ s.current = some c ∧ t < c.start_time ∧
      stop_current_activity fl t s = (.error .invalidInterval, s)) ∨
    (∃ c, fl.failGet = false ∧ s.current = some c ∧ c.start_time ≤ t ∧
      fl.failWrite = true ∧
      stop_current_activity fl t s = (.error .storageFailure, s)) ∨
    (∃ c, fl.failGet = false ∧ s.current = some c ∧ c.start_time ≤ t ∧
      fl.failWrite = false ∧ fl.failReset = true ∧
      stop_current_activity fl t s = (.error .storageFailure,
        ⟨⟨s.finished.entries ++ [(s.finished.nextId, ⟨c.start_time, t, c.tags⟩)],
          s.finished.nextId + 1⟩, s.current⟩)) ∨
    (∃ c, fl.failGet = false ∧ s.current = some c ∧ c.start_time ≤ t ∧
      fl.failWrite = false ∧ fl.failReset = false ∧
      stop_current_activity fl t s = (.ok (some ⟨c.start_time, t, c.tags⟩),
        ⟨⟨s.finished.entries ++ [(s.finished.nextId, ⟨c.start_time, t, c.tags⟩)],
          s.finished.nextId + 1⟩, none⟩)) := by
  cases hg : fl.failGet with
  | true =>
    exact Or.inl ⟨rfl, by simp [stop_current_activity, hg]⟩
  | false =>
    cases hc : s.current with
    | none =>
      exact Or.inr (Or.inl ⟨rfl, rfl, stop_none_of_none fl t s hg hc⟩)
    | some c =>
      rcases lt_or_le t c.start_time with hlt | hle
      · refine Or.inr (Or.inr (Or.inl ⟨c, rfl, rfl, hlt, ?_⟩))
        simp [stop_current_activity, hg, hc, OngoingActivity.into_activity, hlt]
      · cases hw : fl.failWrite with
        | true =>
          refine Or.inr (Or.inr (Or.inr (Or.inl ⟨c, rfl, rfl, hle, rfl, ?_⟩)))
          simp [stop_current_activity, hg, hc, hw,
            OngoingActivity.into_activity, not_lt.mpr hle]
        | false =>
          cases hr : fl.failReset with
          | true =>
            refine Or.inr (Or.inr (Or.inr (Or.inr (Or.inl
              ⟨c, rfl, rfl, hle, rfl, rfl, ?_⟩))))
            simp [stop_current_activity, hg, hc, hw, hr,
              OngoingActivity.into_activity, FinishedStore.write_activity,
              not_lt.mpr hle]
          | false =>
            refine Or.inr (Or.inr (Or.inr (Or.inr (Or.inr
              ⟨c, rfl, rfl, hle, rfl, rfl, ?_⟩))))
            simp [stop_current_activity, hg, hc, hw, hr,
              OngoingActivity.into_activity, FinishedStore.write_activity,
              not_lt.mpr hle]

/-! ### Claims -/

/-- Claim C1 (confirmed): for every start time `t0`, tag set and stop
time `t1 ≥ t0`, a successful fault-free `start_activity` with
`{t0, tags}` followed by `stop_current_activity t1` succeeds, appends
the finished activity `{t0, t1, tags}` to the store, returns it, and
leaves the current slot empty. -/
theorem C1_start_stop_round_trip (s : ServiceState) (t0 t1 : Instant) (tg : Tags)
    (a : OngoingActivity) (s1 : ServiceState)
    (hle : t0 ≤ t1)
    (hstart : start_activity noFaults ⟨t0, tg⟩ s = (.ok a, s1)) :
    stop_current_activity noFaults t1 s1 =
      (.ok (some ⟨t0, t1, tg⟩),
       ⟨⟨s1.finished.entries ++ [(s1.finished.nextId, ⟨t0, t1, tg⟩)],
         s1.finished.nextId + 1⟩, none⟩) := by
  obtain ⟨_, hs1⟩ := start_ok_inv _ _ _ _ hstart
  have hc : s1.current = some ⟨t0, tg⟩ := by rw [hs1]
  exact stop_ok_of_some s1 t0 t1 tg hc hle

/-- Witness for C1 at `t0 = 0`, `t1 = 2`, tags `["foo"]`, starting from
the empty state. -/
theorem C1_witness :
    stop_current_activity noFaults 2 ⟨⟨[], 0⟩, some ⟨0, ["foo"]⟩⟩ =
      (.ok (some ⟨0, 2, ["foo"]⟩), ⟨⟨[(0, ⟨0, 2, ["foo"]⟩)], 1⟩, none⟩) :=
  C1_start_stop_round_trip ⟨⟨[], 0⟩, none⟩ 0 2 ["foo"] ⟨0, ["foo"]⟩
    ⟨⟨[], 0⟩, some ⟨0, ["foo"]⟩⟩ (by decide) (by rfl)

/-- Claim C2 (confirmed): the current slot is single-valued by
construction (an `Option`), so at most one ongoing activity ever
exists; and a fault-free `start_activity` at `t1 ≥ t0` while `{t0, a}`
is ongoing closes the prior interval as `{t0, t1, a}`, appends it to
the finished store, and leaves the slot holding the new ongoing
activity. -/
theorem C2_single_current_autoclose (s : ServiceState) (t0 t1 : Instant)
    (tgA tgB : Tags)
    (hc : s.current = some ⟨t0, tgA⟩) (hle : t0 ≤ t1) :
    start_activity noFaults ⟨t1, tgB⟩ s =
      (.ok ⟨t1, tgB⟩,
       ⟨⟨s.finished.entries ++ [(s.finished.nextId, ⟨t0, t1, tgA⟩)],
         s.finished.nextId + 1⟩, some ⟨t1, tgB⟩⟩) := by
  have hstop := stop_ok_of_some s t0 t1 tgA hc hle
  simp only [start_activity]
  rw [hstop]
  rfl

/-- Witness for C2: a second start at time 5 with tag `b` while
`{3, [a]}` is ongoing. -/
theorem C2_witness :
    start_activity noFaults ⟨5, ["b"]⟩ ⟨⟨[], 0⟩, some ⟨3, ["a"]⟩⟩ =
      (.ok ⟨5, ["b"]⟩, ⟨⟨[(0, ⟨3, 5, ["a"]⟩)], 1⟩, some ⟨5, ["b"]⟩⟩) :=
  C2_single_current_autoclose ⟨⟨[], 0⟩, some ⟨3, ["a"]⟩⟩ 3 5 ["a"] ["b"]
    (by rfl) (by decide)

/-- Claim C5 (confirmed): stopping with an empty current slot returns a
successful `none`, leaves the whole state unchanged, and stays a no-op
under arbitrarily many repetitions. -/
theorem C5_stop_idle_noop (t : Instant) (s : ServiceState)
    (hc : s.current = none) :
    stop_current_activity noFaults t s = (.ok none, s) ∧
      ∀ n : Nat, (fun st => (stop_current_activity noFaults t st).2)^[n] s = s := by
  have h1 : stop_current_activity noFaults t s = (.ok none, s) :=
    stop_none_of_none noFaults t s rfl hc
  refine ⟨h1, ?_⟩
  intro n
  induction n with
  | zero => rfl
  | succ k ih =>
    rw [Function.iterate_succ_apply, h1]
    exact ih

/-- Witness for C5: stopping three times at time 7 from an idle state
with one stored activity. -/
theorem C5_witness :
    stop_current_activity noFaults 7 ⟨⟨[(0, ⟨1, 2, ["a"]⟩)], 1⟩, none⟩ =
        (.ok none, ⟨⟨[(0, ⟨1, 2, ["a"]⟩)], 1⟩, none⟩) ∧
      (fun st => (stop_current_activity noFaults 7 st).2)^[3]
          ⟨⟨[(0, ⟨1, 2, ["a"]⟩)], 1⟩, none⟩ =
        ⟨⟨[(0, ⟨1, 2, ["a"]⟩)], 1⟩, none⟩ :=
  ⟨(C5_stop_idle_noop 7 ⟨⟨[(0, ⟨1, 2, ["a"]⟩)], 1⟩, none⟩ rfl).1,
   (C5_stop_idle_noop 7 ⟨⟨[(0, ⟨1, 2, ["a"]⟩)], 1⟩, none⟩ rfl).2 3⟩

/-- Claim C10 (confirmed): a fault-free `start_activity` at `t1 < t0`
while `{t0, a}` is ongoing fails with the invalid-interval error
propagated from the implicit stop, leaving the slot still holding the
original ongoing activity and the store unchanged. -/
theorem C10_start_in_past_rejected (s : ServiceState) (t0 t1 : Instant)
    (tgA tgB : Tags)
    (hc : s.current = some ⟨t0, tgA⟩) (h : t1 < t0) :
    start_activity noFaults ⟨t1, tgB⟩ s = (.error .invalidInterval, s) := by
  have hstop := stop_invalid_of_some s t0 t1 tgA hc h
  simp [start_activity, hstop]

/-- Witness for C10: starting at time 2 while `{4, [a]}` is ongoing. -/
theorem C10_witness :
    start_activity noFaults ⟨2, ["b"]⟩ ⟨⟨[], 0⟩, some ⟨4, ["a"]⟩⟩ =
      (.error .invalidInterval, ⟨⟨[], 0⟩, some ⟨4, ["a"]⟩⟩) :=
  C10_start_in_past_rejected ⟨⟨[], 0⟩, some ⟨4, ["a"]⟩⟩ 4 2 ["a"] ["b"]
    (by rfl) (by decide)

/-- Claim C3 counterexample: with an ongoing activity `{0, [a]}` and a
storage failure at the slot clear, `stop_current_activity 1` returns a
failure to the caller while the store write has already taken hold
(the finished store is no longer empty) — so it is not the case that on
every failure neither effect took hold. -/
theorem C3_counterexample :
    (stop_current_activity ⟨false, false, true, false⟩ 1
        ⟨⟨[], 0⟩, some ⟨0, ["a"]⟩⟩).1 = .error .storageFailure ∧
      (stop_current_activity ⟨false, false, true, false⟩ 1
        ⟨⟨[], 0⟩, some ⟨0, ["a"]⟩⟩).2 =
          ⟨⟨[(0, ⟨0, 1, ["a"]⟩)], 1⟩, some ⟨0, ["a"]⟩⟩ := by
  constructor <;> rfl

/-- Claim C3 (corrected): on every execution of
`stop_current_activity`, either the call succeeds and both the store
write and the slot clear took hold, or the caller receives a failure;
any failure at or before the store write leaves the state fully
unchanged (the write is ordered before the slot clear, so the slot is
still occupied), and every failure leaves the slot as it was — but a
failure of the slot clear itself, after a successful write, leaves the
written activity in the store. -/
theorem C3_stop_failure_atomicity (fl : Faults) (t : Instant) (s : ServiceState) :
    (∀ e s', stop_current_activity fl t s = (.error e, s') →
       fl.failReset = false → s' = s) ∧
    (∀ e s', stop_current_activity fl t s = (.error e, s') →
       s'.current = s.current) ∧
    (∀ v s', stop_current_activity fl t s = (.ok (some v), s') →
       s'.current = none ∧
       s'.finished.entries = s.finished.entries ++ [(s.finished.nextId, v)]) ∧
    (∀ s', stop_current_activity fl t s = (.ok none, s') → s' = s) := by
  rcases stop_spec fl t s with ⟨hg, heq⟩ | ⟨hg, hc, heq⟩ | ⟨c, hg, hc, hlt, heq⟩ |
      ⟨c, hg, hc, hle, hw, heq⟩ | ⟨c, hg, hc, hle, hw, hr, heq⟩ |
      ⟨c, hg, hc, hle, hw, hr, heq⟩ <;>
    refine ⟨fun e s' h hfr => ?_, fun e s' h => ?_, fun v s' h => ?_,
      fun s' h => ?_⟩ <;>
    rw [heq] at h <;>
    simp at h <;>
    try simp_all
  · rw [← h.2]
  · obtain ⟨h1, h2⟩ := h
    subst h1
    subst h2
    exact ⟨rfl, rfl⟩

/-- Witness for C3 (amended): a fault-free stop of `{0, [a]}` at time 1
succeeds with the slot cleared and the interval appended. -/
theorem C3_witness :
    (⟨⟨[(0, ⟨0, 1, ["a"]⟩)], 1⟩, none⟩ : ServiceState).current = none ∧
      (⟨⟨[(0, ⟨0, 1, ["a"]⟩)], 1⟩, none⟩ : ServiceState).finished.entries =
        ([] : List (ActivityId × Activity)) ++ [(0, ⟨0, 1, ["a"]⟩)] :=
  (C3_stop_failure_atomicity noFaults 1 ⟨⟨[], 0⟩, some ⟨0, ["a"]⟩⟩).2.2.1
    ⟨0, 1, ["a"]⟩ ⟨⟨[(0, ⟨0, 1, ["a"]⟩)], 1⟩, none⟩ (by rfl)

/-- Claim C4 (confirmed): stopping at a time strictly before the
ongoing activity's start fails with the invalid-interval error and
changes nothing (no swap, no clamp); and under any fault oracle no
activity with end time before start time is ever added to the store. -/
theorem C4_interval_validity :
    (∀ (s : ServiceState) (t0 t1 : Instant) (tg : Tags),
        s.current = some ⟨t0, tg⟩ → t1 < t0 →
        stop_current_activity noFaults t1 s = (.error .invalidInterval, s)) ∧
    (∀ (fl : Faults) (t : Instant) (s : ServiceState),
        (∀ e ∈ s.finished.entries, e.2.start_time ≤ e.2.end_time) →
        ∀ e ∈ (stop_current_activity fl t s).2.finished.entries,
          e.2.start_time ≤ e.2.end_time) := by
  constructor
  · exact fun s t0 t1 tg hc h => stop_invalid_of_some s t0 t1 tg hc h
  · intro fl t s hinv e he
    rcases stop_spec fl t s with ⟨hg, heq⟩ | ⟨hg, hc, heq⟩ | ⟨c, hg, hc, hlt, heq⟩ |
        ⟨c, hg, hc, hle, hw, heq⟩ | ⟨c, hg, hc, hle, hw, hr, heq⟩ |
        ⟨c, hg, hc, hle, hw, hr, heq⟩ <;>
      rw [heq] at he
    · exact hinv e he
    · exact hinv e he
    · exact hinv e he
    · exact hinv e he
    · rcases List.mem_append.mp he with h1 | h1
      · exact hinv e h1
      · simp at h1
        subst h1
        exact hle
    · rcases List.mem_append.mp he with h1 | h1
      · exact hinv e h1
      · simp at h1
        subst h1
        exact hle

/-- Witness for C4: stopping at time 1 while `{4, [a]}` is ongoing. -/
theorem C4_witness :
    stop_current_activity noFaults 1 ⟨⟨[], 0⟩, some ⟨4, ["a"]⟩⟩ =
      (.error .invalidInterval, ⟨⟨[], 0⟩, some ⟨4, ["a"]⟩⟩) :=
  C4_interval_validity.1 ⟨⟨[], 0⟩, some ⟨4, ["a"]⟩⟩ 4 1 ["a"] (by rfl) (by decide)

/-- Claim C6 (confirmed): `filter_activities` returns exactly the
stored entries satisfying the predicate, in store order (it is a
sublist of the entries), and the empty sequence when none match; being
a pure function of the state, it modifies neither the store nor the
slot. -/
theorem C6_filter_correct (p : ActivityId × Activity → Bool) (s : ServiceState) :
    (∀ e, e ∈ filter_activities s p ↔ e ∈ s.finished.entries ∧ p e = true) ∧
      (filter_activities s p).Sublist s.finished.entries ∧
      ((∀ e ∈ s.finished.entries, p e = false) → filter_activities s p = []) := by
  refine ⟨?_, ?_, ?_⟩
  · intro e
    simp [filter_activities, FinishedStore.filter_activities, List.mem_filter]
  · exact List.filter_sublist s.finished.entries
  · intro h
    show List.filter p s.finished.entries = []
    rw [List.filter_eq_nil_iff]
    intro e he
    simp [h e he]

/-- Witness for C6: filtering a two-entry store by start time. -/
theorem C6_witness :
    ((0, (⟨0, 1, ["a"]⟩ : Activity)) ∈
        filter_activities ⟨⟨[(0, ⟨0, 1, ["a"]⟩), (1, ⟨5, 6, ["b"]⟩)], 2⟩, none⟩
          (fun e => decide (e.2.start_time < 3)) ↔
      (0, (⟨0, 1, ["a"]⟩ : Activity)) ∈
          [(0, (⟨0, 1, ["a"]⟩ : Activity)), (1, ⟨5, 6, ["b"]⟩)] ∧
        decide ((0, (⟨0, 1, ["a"]⟩ : Activity)).2.start_time < 3) = true) ∧
      filter_activities ⟨⟨[(0, ⟨0, 1, ["a"]⟩), (1, ⟨5, 6, ["b"]⟩)], 2⟩, none⟩
        (fun e => decide (9 < e.2.start_time)) = [] :=
  ⟨(C6_filter_correct (fun e => decide (e.2.start_time < 3))
      ⟨⟨[(0, ⟨0, 1, ["a"]⟩), (1, ⟨5, 6, ["b"]⟩)], 2⟩, none⟩).1
        (0, ⟨0, 1, ["a"]⟩),
   (C6_filter_correct (fun e => decide (9 < e.2.start_time))
      ⟨⟨[(0, ⟨0, 1, ["a"]⟩), (1, ⟨5, 6, ["b"]⟩)], 2⟩, none⟩).2.2 (by decide)⟩

/-- Claim C7 (confirmed): deleting an id present in the store removes
its entry — no subsequent filter returns an entry with that id — and
returns the removed activity; deleting an absent id returns a
successful `none` and leaves the state unchanged. -/
theorem C7_delete_correct (s : ServiceState) (id : ActivityId) :
    (s.finished.entries.find? (fun e => e.1 == id) = none →
       delete_activity s id = (none, s)) ∧
    (∀ en, s.finished.entries.find? (fun e => e.1 == id) = some en →
       delete_activity s id =
         (some en.2,
          ⟨⟨s.finished.entries.filter (fun x => !(x.1 == id)),
            s.finished.nextId⟩, s.current⟩) ∧
       ∀ p x, x ∈ filter_activities
           ⟨⟨s.finished.entries.filter (fun x => !(x.1 == id)),
             s.finished.nextId⟩, s.current⟩ p → x.1 ≠ id) := by
  constructor
  · intro h
    simp [delete_activity, FinishedStore.delete_activity, h]
  · intro en hen
    constructor
    · simp [delete_activity, FinishedStore.delete_activity, hen]
    · intro p x hx
      have hx2 := (List.mem_filter.mp hx).1
      have hx3 := (List.mem_filter.mp hx2).2
      simpa using hx3

/-- Witness for C7: deleting id 0 from a one-entry store, then the
trivially-true filter no longer returns id 0; and deleting id 5 from
the same store is a no-op. -/
theorem C7_witness :
    (delete_activity ⟨⟨[(0, ⟨0, 1, ["a"]⟩)], 1⟩, none⟩ 0 =
        (some ⟨0, 1, ["a"]⟩, ⟨⟨[], 1⟩, none⟩) ∧
      ∀ p x, x ∈ filter_activities ⟨⟨[], 1⟩, none⟩ p → x.1 ≠ 0) ∧
      delete_activity ⟨⟨[(0, ⟨0, 1, ["a"]⟩)], 1⟩, none⟩ 5 =
        (none, ⟨⟨[(0, ⟨0, 1, ["a"]⟩)], 1⟩, none⟩) :=
  ⟨(C7_delete_correct ⟨⟨[(0, ⟨0, 1, ["a"]⟩)], 1⟩, none⟩ 0).2
      (0, ⟨0, 1, ["a"]⟩) (by rfl),
   (C7_delete_correct ⟨⟨[(0, ⟨0, 1, ["a"]⟩)], 1⟩, none⟩ 5).1 (by rfl)⟩

/-- Claim C8 (confirmed): tracking an activity whose end time precedes
its start time fails with an error under every fault oracle — with the
invalid-interval error when storage works — and the state, in
particular the finished store, is left unchanged. -/
theorem C8_track_invalid_rejected (fl : Faults) (a : Activity) (s : ServiceState)
    (h : a.end_time < a.start_time) :
    track_activity fl a s = (.error (if fl.failWrite then .storageFailure
      else .invalidInterval), s) := by
  cases hw : fl.failWrite with
  | true => simp [track_activity, hw]
  | false => simp [track_activity, hw, FinishedStore.write_activity, h]

/-- Witness for C8: tracking `{5, 3, [a]}` fault-free from the empty
state. -/
theorem C8_witness :
    track_activity noFaults ⟨5, 3, ["a"]⟩ ⟨⟨[], 0⟩, none⟩ =
      (.error .invalidInterval, ⟨⟨[], 0⟩, none⟩) :=
  C8_track_invalid_rejected noFaults ⟨5, 3, ["a"]⟩ ⟨⟨[], 0⟩, none⟩ (by decide)

/-- Claim C9 (confirmed): `track_activity` never touches the current
slot, under any fault oracle; on success it returns the tracked
activity unchanged and only appends it to the finished store. -/
theorem C9_track_frame (fl : Faults) (a : Activity) (s : ServiceState) :
    (track_activity fl a s).2.current = s.current ∧
      ∀ r s', track_activity fl a s = (.ok r, s') →
        r = a ∧ s'.finished.entries =
          s.finished.entries ++ [(s.finished.nextId, a)] := by
  cases hw : fl.failWrite with
  | true =>
    constructor
    · simp [track_activity, hw]
    · intro r s' hok
      simp [track_activity, hw] at hok
  | false =>
    by_cases hval : a.end_time < a.start_time
    · constructor
      · simp [track_activity, hw, FinishedStore.write_activity, hval]
      · intro r s' hok
        simp [track_activity, hw, FinishedStore.write_activity, hval] at hok
    · constructor
      · simp [track_activity, hw, FinishedStore.write_activity, hval]
      · intro r s' hok
        simp [track_activity, hw, FinishedStore.write_activity, hval] at hok
        obtain ⟨h1, h2⟩ := hok
        refine ⟨h1.symm, ?_⟩
        rw [← h2]

/-- Witness for C9: fault-free tracking of `{1, 2, [x]}` into the empty
state leaves the (empty) slot untouched and appends one entry. -/
theorem C9_witness :
    (track_activity noFaults ⟨1, 2, ["x"]⟩ ⟨⟨[], 0⟩, none⟩).2.current =
        (⟨⟨[], 0⟩, none⟩ : ServiceState).current ∧
      (⟨1, 2, ["x"]⟩ : Activity) = ⟨1, 2, ["x"]⟩ ∧
        (⟨⟨[(0, ⟨1, 2, ["x"]⟩)], 1⟩, none⟩ : ServiceState).finished.entries =
          ([] : List (ActivityId × Activity)) ++ [(0, ⟨1, 2, ["x"]⟩)] :=
  ⟨(C9_track_frame noFaults ⟨1, 2, ["x"]⟩ ⟨⟨[], 0⟩, none⟩).1,
   (C9_track_frame noFaults ⟨1, 2, ["x"]⟩ ⟨⟨[], 0⟩, none⟩).2 ⟨1, 2, ["x"]⟩
     ⟨⟨[(0, ⟨1, 2, ["x"]⟩)], 1⟩, none⟩ (by rfl)⟩

end Rtw
